import Mathlib

/-!
Shallow embedding of the dbserver lifecycle manager (src/main.go).

The Go program keeps a global slice metaDataList of metaData records, looks
records up case-insensitively with findRecordsByDBName (strings.EqualFold),
and exposes three HTTP handlers: createDB, deleteDB and getMetadata.  Here
the handlers become pure functions over an explicit registry state
(the List metaData that models the global slice), an Engine oracle that
supplies the replies of the backing MySQL engine, and an explicit trace of
engine calls, so that connection-handling and deadline behaviour become
provable facts.
-/

namespace DBServer

/-- Constant username from main.go. -/
def username : String := "root"

/-- Constant password from main.go. -/
def password : String := "password"

/-- Constant hostname from main.go. -/
def hostname : String := "127.0.0.1:3306"

/-- Model of func dsn: builds the data source name string. -/
def dsn (dbName : String) : String :=
  username ++ ":" ++ password ++ "@tcp(" ++ hostname ++ ")/" ++ dbName

/-- Model of type payload: the decoded body of a createDB request. -/
structure payload where
  Name : String
  Engine : String
  Size : String
  Replicas : Int
deriving Repr, DecidableEq

/-- Model of type metaData: one registry record. -/
structure metaData where
  Name : String
  Engine : String
  Size : String
  Replicas : Int
  uuid : String
deriving Repr, DecidableEq

/-- Model of strings.EqualFold: Unicode-simple case folding is modelled by
character-wise lower-casing of the underlying character lists. -/
def eqFold (a b : String) : Bool :=
  a.data.map Char.toLower == b.data.map Char.toLower

/-- Recursive worker for findRecordsByDBName: the Go loop over the slice,
carrying the position counter p. -/
def findAux (name : String) : Nat → List metaData → Int
  | _, [] => -1
  | p, v :: rest =>
      if eqFold v.Name name then Int.ofNat p else findAux name (p + 1) rest

/-- Model of func findRecordsByDBName: position of the first record whose
Name equals name under case folding, or -1. -/
def findRecordsByDBName (metaDataList : List metaData) (name : String) : Int :=
  findAux name 0 metaDataList

/-- Reply of the engine to an ExecContext plus RowsAffected pair: success
with the affected-row count, an execution error, a context deadline
exceeded, or a RowsAffected error. -/
inductive ExecRes where
  | ok (rows : Int)
  | execErr
  | timeoutErr
  | rowsErr
deriving Repr, DecidableEq

/-- Reply of the engine to PingContext. -/
inductive PingRes where
  | ok
  | unreachable
  | timeoutErr
deriving Repr, DecidableEq

/-- Oracle giving the replies of the backing engine, keyed by the data the
Go code passes in each call: driver and DSN for sql.Open, DSN and statement
for ExecContext, DSN for PingContext and for the UUID_SHORT row query
(none models a Scan error). -/
structure Engine where
  openOk : String → String → Bool
  exec : String → String → ExecRes
  ping : String → PingRes
  uuid : String → Option Int

/-- One engine-facing action of a handler, in program order, recording the
deadline (in time units, from context.WithTimeout) under which the Go code
issues it; none records that the code attaches no deadline. -/
inductive EngineCall where
  | openCall (driver dsnStr : String) (deadline : Option Nat)
  | execCall (dsnStr stmt : String) (deadline : Option Nat)
  | pingCall (dsnStr : String) (deadline : Option Nat)
  | queryRowCall (dsnStr stmt : String) (deadline : Option Nat)
  | closeCall (dsnStr : String)
deriving Repr, DecidableEq

/-- Deadline attached to a call. -/
def EngineCall.deadlineOf : EngineCall → Option Nat
  | .openCall _ _ d => d
  | .execCall _ _ d => d
  | .pingCall _ d => d
  | .queryRowCall _ _ d => d
  | .closeCall _ => none

/-- Whether a call is a statement execution. -/
def EngineCall.isExec : EngineCall → Bool
  | .execCall _ _ _ => true
  | _ => false

/-- Whether a call is a verification ping. -/
def EngineCall.isPing : EngineCall → Bool
  | .pingCall _ _ => true
  | _ => false

/-- Whether a call opens a pool handle. -/
def EngineCall.isOpen : EngineCall → Bool
  | .openCall _ _ _ => true
  | _ => false

/-- Whether a call is the identity row query. -/
def EngineCall.isQueryRow : EngineCall → Bool
  | .queryRowCall _ _ _ => true
  | _ => false

/-- Whether a call closes a pool handle. -/
def EngineCall.isClose : EngineCall → Bool
  | .closeCall _ => true
  | _ => false

/-- Exit points of createDB, one per return site of the Go handler. -/
inductive CreateOutcome where
  | panicDecode
  | dupDB
  | openErr
  | execErr
  | rowsErr
  | open2Err
  | pingErr
  | uuidErr
  | success (uuid : String)
deriving Repr, DecidableEq

/-- Whether a createDB outcome is the success exit. -/
def CreateOutcome.isSuccess : CreateOutcome → Bool
  | .success _ => true
  | _ => false

/-- Exit points of deleteDB, one per return site of the Go handler. -/
inductive DeleteOutcome where
  | notPresent
  | openErr
  | execErr
  | rowsErr
  | success
deriving Repr, DecidableEq

/-- Whether a deleteDB outcome is the success exit. -/
def DeleteOutcome.isSuccess : DeleteOutcome → Bool
  | .success => true
  | _ => false

/-- The CREATE DATABASE statement built in createDB. -/
def createStmt (name : String) : String :=
  "CREATE DATABASE IF NOT EXISTS " ++ name

/-- The DROP DATABASE statement built in deleteDB. -/
def dropStmt (name : String) : String :=
  "DROP DATABASE " ++ name

/-- The metadata record appended on success, as built in createDB. -/
def mkRecord (t : payload) (u : String) : metaData :=
  { Name := t.Name, Engine := t.Engine, Size := t.Size,
    Replicas := t.Replicas, uuid := u }

/-- Model of handler createDB. Input: the engine oracle, the current
registry (global metaDataList) and the decoded request body (none models a
JSON decode error, on which the Go code panics). Output: the new registry,
the exit taken, and the trace of engine calls in program order. The
control flow mirrors main.go line by line: duplicate check, unscoped
sql.Open, CREATE DATABASE under a 5-unit deadline, RowsAffected, explicit
Close of the unscoped handle only on that success path, scoped sql.Open
with deferred Close, PingContext under a 5-unit deadline, and the
UUID_SHORT row query issued with no deadline (db.QueryRow takes no
context). On the CREATE error and RowsAffected error paths the Go code
returns without closing the unscoped handle, so no closeCall appears
there. -/
def createDB (eng : Engine) (metaDataList : List metaData)
    (body : Option payload) :
    List metaData × CreateOutcome × List EngineCall :=
  match body with
  | none => (metaDataList, .panicDecode, [])
  | some t =>
    if findRecordsByDBName metaDataList t.Name ≠ -1 then
      (metaDataList, .dupDB, [])
    else
      match eng.openOk t.Engine (dsn "") with
      | false => (metaDataList, .openErr, [.openCall t.Engine (dsn "") none])
      | true =>
        match eng.exec (dsn "") (createStmt t.Name) with
        | .execErr =>
            (metaDataList, .execErr,
              [.openCall t.Engine (dsn "") none,
               .execCall (dsn "") (createStmt t.Name) (some 5)])
        | .timeoutErr =>
            (metaDataList, .execErr,
              [.openCall t.Engine (dsn "") none,
               .execCall (dsn "") (createStmt t.Name) (some 5)])
        | .rowsErr =>
            (metaDataList, .rowsErr,
              [.openCall t.Engine (dsn "") none,
               .execCall (dsn "") (createStmt t.Name) (some 5)])
        | .ok _ =>
          match eng.openOk t.Engine (dsn t.Name) with
          | false =>
              (metaDataList, .open2Err,
                [.openCall t.Engine (dsn "") none,
                 .execCall (dsn "") (createStmt t.Name) (some 5),
                 .closeCall (dsn ""),
                 .openCall t.Engine (dsn t.Name) none])
          | true =>
            match eng.ping (dsn t.Name) with
            | .unreachable =>
                (metaDataList, .pingErr,
                  [.openCall t.Engine (dsn "") none,
                   .execCall (dsn "") (createStmt t.Name) (some 5),
                   .closeCall (dsn ""),
                   .openCall t.Engine (dsn t.Name) none,
                   .pingCall (dsn t.Name) (some 5),
                   .closeCall (dsn t.Name)])
            | .timeoutErr =>
                (metaDataList, .pingErr,
                  [.openCall t.Engine (dsn "") none,
                   .execCall (dsn "") (createStmt t.Name) (some 5),
                   .closeCall (dsn ""),
                   .openCall t.Engine (dsn t.Name) none,
                   .pingCall (dsn t.Name) (some 5),
                   .closeCall (dsn t.Name)])
            | .ok =>
              match eng.uuid (dsn t.Name) with
              | none =>
                  (metaDataList, .uuidErr,
                    [.openCall t.Engine (dsn "") none,
                     .execCall (dsn "") (createStmt t.Name) (some 5),
                     .closeCall (dsn ""),
                     .openCall t.Engine (dsn t.Name) none,
                     .pingCall (dsn t.Name) (some 5),
                     .queryRowCall (dsn t.Name) "SELECT UUID_SHORT()" none,
                     .closeCall (dsn t.Name)])
              | some v =>
                  (metaDataList ++ [mkRecord t (toString v)],
                   .success (toString v),
                    [.openCall t.Engine (dsn "") none,
                     .execCall (dsn "") (createStmt t.Name) (some 5),
                     .closeCall (dsn ""),
                     .openCall t.Engine (dsn t.Name) none,
                     .pingCall (dsn t.Name) (some 5),
                     .queryRowCall (dsn t.Name) "SELECT UUID_SHORT()" none,
                     .closeCall (dsn t.Name)])

/-- Model of handler deleteDB. Input: engine oracle, registry, the dbName
query parameter. Mirrors main.go: registry lookup first (early return with
no engine interaction when absent), sql.Open with the literal mysql driver
and a deferred Close, DROP DATABASE under a 5-unit deadline, RowsAffected,
and the slice-shift removal, which is List.eraseIdx at the found
position. -/
def deleteDB (eng : Engine) (metaDataList : List metaData)
    (dbName : String) :
    List metaData × DeleteOutcome × List EngineCall :=
  if findRecordsByDBName metaDataList dbName = -1 then
    (metaDataList, .notPresent, [])
  else
    match eng.openOk "mysql" (dsn dbName) with
    | false => (metaDataList, .openErr, [.openCall "mysql" (dsn dbName) none])
    | true =>
      match eng.exec (dsn dbName) (dropStmt dbName) with
      | .execErr =>
          (metaDataList, .execErr,
            [.openCall "mysql" (dsn dbName) none,
             .execCall (dsn dbName) (dropStmt dbName) (some 5),
             .closeCall (dsn dbName)])
      | .timeoutErr =>
          (metaDataList, .execErr,
            [.openCall "mysql" (dsn dbName) none,
             .execCall (dsn dbName) (dropStmt dbName) (some 5),
             .closeCall (dsn dbName)])
      | .rowsErr =>
          (metaDataList, .rowsErr,
            [.openCall "mysql" (dsn dbName) none,
             .execCall (dsn dbName) (dropStmt dbName) (some 5),
             .closeCall (dsn dbName)])
      | .ok _ =>
          (metaDataList.eraseIdx (findRecordsByDBName metaDataList dbName).toNat,
           .success,
            [.openCall "mysql" (dsn dbName) none,
             .execCall (dsn dbName) (dropStmt dbName) (some 5),
             .closeCall (dsn dbName)])

/-- Model of handler getMetadata: it only reads the registry. -/
def getMetadata (metaDataList : List metaData) : List metaData :=
  metaDataList

/-- Number of registry records matching a name under case folding. -/
def countMatch (l : List metaData) (name : String) : Nat :=
  (l.filter fun v => eqFold v.Name name).length

/-- Left fold running a sequence of createDB requests against one engine,
threading the registry. -/
def runCreates (eng : Engine) (reg : List metaData) (ts : List payload) :
    List metaData :=
  ts.foldl (fun r t => (createDB eng r (some t)).1) reg

/-- An engine all of whose replies are successes. -/
def Engine.allOk (eng : Engine) : Prop :=
  (∀ drv d, eng.openOk drv d = true) ∧
  (∀ d s, ∃ n, eng.exec d s = .ok n) ∧
  (∀ d, eng.ping d = .ok) ∧
  (∀ d, ∃ v, eng.uuid d = some v)

/-! Interleaving model for unsynchronized concurrent createDB calls.

main.go imports no synchronization primitive: the global metaDataList is
read by findRecordsByDBName and appended to with no lock, while net/http
serves each request on its own goroutine.  Between one handler's duplicate
check and its append, the other handler may therefore run its own check.
A create transaction is split at exactly the two points where the handler
touches the shared registry: the duplicate check and the append; the
engine work in between touches no shared state and is elided (taken to
succeed, with the thread's identity u precomputed by the oracle). -/

/-- Position of an unsynchronized create transaction. -/
inductive CreatePhase where
  | checkPhase
  | insertPhase
  | donePhase
deriving Repr, DecidableEq

/-- One in-flight createDB goroutine: its decoded payload, the identity the
engine will assign, its position, and whether its duplicate check passed. -/
structure CreateThread where
  t : payload
  u : String
  phase : CreatePhase
  passed : Bool
deriving Repr, DecidableEq

/-- Run one registry-touching step of a thread against the shared registry. -/
def stepThread (reg : List metaData) (th : CreateThread) :
    List metaData × CreateThread :=
  match th.phase with
  | .checkPhase =>
      (reg, { th with passed := findRecordsByDBName reg th.t.Name == -1,
                      phase := .insertPhase })
  | .insertPhase =>
      ((if th.passed then reg ++ [mkRecord th.t th.u] else reg),
       { th with phase := .donePhase })
  | .donePhase => (reg, th)

/-- Run two unsynchronized create transactions under a schedule: true steps
the first thread, false the second. -/
def runSched (reg : List metaData) (th₁ th₂ : CreateThread) :
    List Bool → List metaData × CreateThread × CreateThread
  | [] => (reg, th₁, th₂)
  | b :: rest =>
      if b then
        let s := stepThread reg th₁
        runSched s.1 s.2 th₂ rest
      else
        let s := stepThread reg th₂
        runSched s.1 th₁ s.2 rest

/-! Concrete fixtures used to evaluate the model on the spec's examples. -/

/-- The first example request body of the spec. -/
def tAlpha : payload :=
  { Name := "alpha", Engine := "mysql", Size := "20MB", Replicas := 2 }

/-- A second example request body. -/
def tBeta : payload :=
  { Name := "beta", Engine := "mysql", Size := "30MB", Replicas := 3 }

/-- The first body with its name upper-cased, colliding under case folding. -/
def tAlphaUpper : payload :=
  { Name := "ALPHA", Engine := "mysql", Size := "20MB", Replicas := 2 }

/-- An engine that answers every call successfully, assigning the identity
from the spec's worked example. -/
def engAllOk : Engine :=
  { openOk := fun _ _ => true, exec := fun _ _ => .ok 1,
    ping := fun _ => .ok, uuid := fun _ => some 100934786117271616 }

/-- An engine whose statement executions fail. -/
def engExecFail : Engine :=
  { openOk := fun _ _ => true, exec := fun _ _ => .execErr,
    ping := fun _ => .ok, uuid := fun _ => some 0 }

/-- An engine whose statement executions exceed their deadline. -/
def engExecTimeout : Engine :=
  { openOk := fun _ _ => true, exec := fun _ _ => .timeoutErr,
    ping := fun _ => .ok, uuid := fun _ => some 0 }

/-- Deadline discipline actually implemented by the handlers: statement
executions and pings carry the 5-unit deadline, pool opens and the
identity row query carry none. -/
def goodCallB (c : EngineCall) : Bool :=
  (!(c.isExec || c.isPing) || (c.deadlineOf == some 5)) &&
  (!(c.isOpen || c.isQueryRow) || (c.deadlineOf == none))

/-- Deadline discipline asserted by the spec: every engine call other than
a close carries the 5-unit deadline. -/
def specDeadlineB (c : EngineCall) : Bool :=
  c.isClose || (c.deadlineOf == some 5)

/-- Registry states reachable from the empty registry by any sequence of
the three handlers (getMetadata does not change the state). -/
inductive Reachable : List metaData → Prop
  | empty : Reachable []
  | create (eng : Engine) (body : Option payload) (r : List metaData) :
      Reachable r → Reachable (createDB eng r body).1
  | delete (eng : Engine) (nm : String) (r : List metaData) :
      Reachable r → Reachable (deleteDB eng r nm).1

/-! Helper lemmas about case folding and the registry lookup. -/

lemma eqFold_refl (a : String) : eqFold a a = true := by
  simp [eqFold]

lemma eqFold_symm (a b : String) (h : eqFold a b = true) : eqFold b a = true := by
  simp [eqFold] at h ⊢
  exact h.symm

lemma eqFold_trans (a b c : String) (h₁ : eqFold a b = true)
    (h₂ : eqFold b c = true) : eqFold a c = true := by
  simp [eqFold] at h₁ h₂ ⊢
  exact h₁.trans h₂

lemma findAux_eq_neg_iff (name : String) (l : List metaData) :
    ∀ p : Nat, (findAux name p l = -1 ↔ ∀ v ∈ l, eqFold v.Name name = false) := by
  induction l with
  | nil => intro p; simp [findAux]
  | cons v rest ih =>
    intro p
    by_cases hv : eqFold v.Name name = true
    · simp [findAux, hv]
    · have hv2 : eqFold v.Name name = false := by
        cases h : eqFold v.Name name
        · rfl
        · exact absurd h hv
      simp [findAux, hv2, ih (p + 1)]

lemma find_eq_neg_iff (l : List metaData) (name : String) :
    findRecordsByDBName l name = -1 ↔ ∀ v ∈ l, eqFold v.Name name = false := by
  exact findAux_eq_neg_iff name l 0

lemma find_ne_neg_of_mem (l : List metaData) (name : String)
    (h : ∃ v ∈ l, eqFold v.Name name = true) :
    findRecordsByDBName l name ≠ -1 := by
  intro hcon
  obtain ⟨v, hvl, hvf⟩ := h
  have := (find_eq_neg_iff l name).mp hcon v hvl
  rw [this] at hvf
  exact Bool.false_ne_true hvf

lemma findAux_spec (name : String) (l : List metaData) :
    ∀ p : Nat, findAux name p l ≠ -1 →
      ∃ k, ∃ h : k < l.length, findAux name p l = Int.ofNat (p + k) ∧
        eqFold (l.get ⟨k, h⟩).Name name = true := by
  induction l with
  | nil => intro p h; exact absurd rfl h
  | cons v rest ih =>
    intro p h
    by_cases hv : eqFold v.Name name = true
    · exact ⟨0, Nat.succ_pos _, by simp [findAux, hv], hv⟩
    · have hv2 : eqFold v.Name name = false := by
        cases hcase : eqFold v.Name name
        · rfl
        · exact absurd hcase hv
      have h2 : findAux name (p + 1) rest ≠ -1 := by
        simpa [findAux, hv2] using h
      obtain ⟨k, hk, he, hm⟩ := ih (p + 1) h2
      refine ⟨k + 1, Nat.succ_lt_succ hk, ?_, hm⟩
      simp only [findAux, hv2, Bool.false_eq_true, if_false]
      rw [he]
      congr 1
      omega

lemma find_spec (l : List metaData) (name : String)
    (h : findRecordsByDBName l name ≠ -1) :
    ∃ k, ∃ hk : k < l.length, findRecordsByDBName l name = Int.ofNat k ∧
      eqFold (l.get ⟨k, hk⟩).Name name = true := by
  obtain ⟨k, hk, he, hm⟩ := findAux_spec name l 0 h
  exact ⟨k, hk, by simpa using he, hm⟩

/-! Helper lemmas about counting matching records. -/

lemma countMatch_eq_zero_iff (l : List metaData) (name : String) :
    countMatch l name = 0 ↔ ∀ v ∈ l, eqFold v.Name name = false := by
  simp only [countMatch, List.length_eq_zero, List.filter_eq_nil_iff]
  constructor
  · intro h v hv
    cases hcase : eqFold v.Name name
    · rfl
    · exact absurd hcase (h v hv)
  · intro h v hv
    rw [h v hv]
    exact Bool.false_ne_true

lemma countMatch_append_single (l : List metaData) (m : metaData)
    (name : String) :
    countMatch (l ++ [m]) name =
      countMatch l name + (if eqFold m.Name name = true then 1 else 0) := by
  by_cases hm : eqFold m.Name name = true
  · simp [countMatch, List.filter_append, hm]
  · have hm2 : eqFold m.Name name = false := by
      cases hcase : eqFold m.Name name
      · rfl
      · exact absurd hcase hm
    simp [countMatch, List.filter_append, hm2]

lemma length_filter_eraseIdx (p : metaData → Bool) :
    ∀ (l : List metaData) (k : Nat) (h : k < l.length),
      p (l.get ⟨k, h⟩) = true →
      ((l.eraseIdx k).filter p).length + 1 = (l.filter p).length := by
  intro l
  induction l with
  | nil => intro k h; exact absurd h (Nat.not_lt_zero k)
  | cons v rest ih =>
    intro k h hp
    cases k with
    | zero =>
      simp only [List.get] at hp
      simp [List.eraseIdx, List.filter_cons_of_pos hp]
    | succ k =>
      have hk : k < rest.length := Nat.lt_of_succ_lt_succ h
      have hp2 : p (rest.get ⟨k, hk⟩) = true := hp
      have := ih k hk hp2
      cases hv : p v
      · simp only [List.eraseIdx, List.filter_cons, hv, Bool.false_eq_true,
          if_false]
        omega
      · simp only [List.eraseIdx, List.filter_cons, hv, if_true,
          List.length_cons]
        omega

/-! Master case analyses of the two handlers. -/

lemma create_cases (eng : Engine) (reg : List metaData) (body : Option payload) :
    ((createDB eng reg body).1 = reg ∧
      (createDB eng reg body).2.1.isSuccess = false)
    ∨ (∃ t v n, body = some t ∧
        findRecordsByDBName reg t.Name = -1 ∧
        eng.openOk t.Engine (dsn "") = true ∧
        eng.exec (dsn "") (createStmt t.Name) = .ok n ∧
        eng.openOk t.Engine (dsn t.Name) = true ∧
        eng.ping (dsn t.Name) = .ok ∧
        eng.uuid (dsn t.Name) = some v ∧
        (createDB eng reg body).1 = reg ++ [mkRecord t (toString v)] ∧
        (createDB eng reg body).2.1 = .success (toString v)) := by
  rcases body with _ | t
  · exact Or.inl ⟨rfl, rfl⟩
  simp only [createDB]
  by_cases hf : findRecordsByDBName reg t.Name ≠ -1
  · rw [if_pos hf]
    exact Or.inl ⟨rfl, rfl⟩
  rw [if_neg hf]
  push_neg at hf
  cases ho1 : eng.openOk t.Engine (dsn "")
  · exact Or.inl ⟨rfl, rfl⟩
  cases hx : eng.exec (dsn "") (createStmt t.Name) with
  | execErr => exact Or.inl ⟨rfl, rfl⟩
  | timeoutErr => exact Or.inl ⟨rfl, rfl⟩
  | rowsErr => exact Or.inl ⟨rfl, rfl⟩
  | ok n =>
    cases ho2 : eng.openOk t.Engine (dsn t.Name)
    · exact Or.inl ⟨rfl, rfl⟩
    cases hp : eng.ping (dsn t.Name) with
    | unreachable => exact Or.inl ⟨rfl, rfl⟩
    | timeoutErr => exact Or.inl ⟨rfl, rfl⟩
    | ok =>
      cases hu : eng.uuid (dsn t.Name) with
      | none => exact Or.inl ⟨rfl, rfl⟩
      | some v =>
        exact Or.inr ⟨t, v, n, rfl, hf, ho1, hx, ho2, hp, hu, rfl, rfl⟩

lemma delete_cases (eng : Engine) (reg : List metaData) (nm : String) :
    ((deleteDB eng reg nm).1 = reg ∧
      (deleteDB eng reg nm).2.1.isSuccess = false)
    ∨ (∃ k n, ∃ hk : k < reg.length,
        findRecordsByDBName reg nm = Int.ofNat k ∧
        eqFold (reg.get ⟨k, hk⟩).Name nm = true ∧
        eng.openOk "mysql" (dsn nm) = true ∧
        eng.exec (dsn nm) (dropStmt nm) = .ok n ∧
        (deleteDB eng reg nm).1 = reg.eraseIdx k ∧
        (deleteDB eng reg nm).2.1 = .success) := by
  simp only [deleteDB]
  by_cases hf : findRecordsByDBName reg nm = -1
  · rw [if_pos hf]
    exact Or.inl ⟨rfl, rfl⟩
  rw [if_neg hf]
  obtain ⟨k, hk, he, hm⟩ := find_spec reg nm hf
  cases ho : eng.openOk "mysql" (dsn nm)
  · exact Or.inl ⟨rfl, rfl⟩
  cases hx : eng.exec (dsn nm) (dropStmt nm) with
  | execErr => exact Or.inl ⟨rfl, rfl⟩
  | timeoutErr => exact Or.inl ⟨rfl, rfl⟩
  | rowsErr => exact Or.inl ⟨rfl, rfl⟩
  | ok n =>
    refine Or.inr ⟨k, n, hk, he, hm, rfl, rfl, ?_, rfl⟩
    rw [he]
    simp [Int.toNat_ofNat]

/-- The duplicate branch: when a case-folded match is present, createDB
returns through the early duplicate exit. -/
lemma create_dup (eng : Engine) (reg : List metaData) (t : payload)
    (h : ∃ v ∈ reg, eqFold v.Name t.Name = true) :
    createDB eng reg (some t) = (reg, .dupDB, []) := by
  simp only [createDB]
  rw [if_pos (find_ne_neg_of_mem reg t.Name h)]

/-- With an all-success engine and a fresh name, createDB succeeds and
appends exactly the new record. -/
lemma create_allOk (eng : Engine) (reg : List metaData) (t : payload)
    (hok : eng.allOk) (hf : findRecordsByDBName reg t.Name = -1) :
    ∃ v, eng.uuid (dsn t.Name) = some v ∧
      (createDB eng reg (some t)).1 = reg ++ [mkRecord t (toString v)] ∧
      (createDB eng reg (some t)).2.1 = .success (toString v) := by
  obtain ⟨ho, hx, hp, hu⟩ := hok
  obtain ⟨n, hn⟩ := hx (dsn "") (createStmt t.Name)
  obtain ⟨v, hv⟩ := hu (dsn t.Name)
  refine ⟨v, hv, ?_, ?_⟩ <;>
    simp [createDB, hf, ho, hn, hp (dsn t.Name), hv]

/-! Claim theorems. -/

/-- Claim C1: when the registry already contains a record whose name equals
the requested name under case folding, createDB takes the DuplicateDatabase
exit leaving the registry unchanged with no engine call; and two
successive creates with the same case-folded name never yield two matching
records. -/
theorem create_duplicate_rejected
    (eng₁ eng₂ : Engine) (reg reg₀ : List metaData) (t t₁ t₂ : payload)
    (h : ∃ v ∈ reg, eqFold v.Name t.Name = true)
    (hfold : eqFold t₂.Name t₁.Name = true)
    (h₀ : countMatch reg₀ t₁.Name = 0) :
    createDB eng₁ reg (some t) = (reg, .dupDB, []) ∧
    countMatch
      ((createDB eng₂ ((createDB eng₁ reg₀ (some t₁)).1) (some t₂)).1)
      t₁.Name ≤ 1 := by
  refine ⟨create_dup eng₁ reg t h, ?_⟩
  rcases create_cases eng₁ reg₀ (some t₁) with ⟨hreg, _⟩ |
    ⟨t', v, n, heq, hfind, _, _, _, _, _, hreg, _⟩
  · rw [hreg]
    rcases create_cases eng₂ reg₀ (some t₂) with ⟨hreg₂, _⟩ |
      ⟨t₂', v₂, n₂, heq₂, _, _, _, _, _, _, hreg₂, _⟩
    · rw [hreg₂, h₀]
      omega
    · injection heq₂ with ht₂
      subst ht₂
      rw [hreg₂, countMatch_append_single, h₀]
      simp only [mkRecord]
      split <;> omega
  · injection heq with ht
    subst ht
    have hmem : ∃ w ∈ (createDB eng₁ reg₀ (some t₁)).1,
        eqFold w.Name t₂.Name = true := by
      rw [hreg]
      exact ⟨mkRecord t₁ (toString v), by simp,
        by simpa [mkRecord] using eqFold_symm t₂.Name t₁.Name hfold⟩
    rw [create_dup eng₂ _ t₂ hmem]
    rw [hreg, countMatch_append_single, h₀]
    simp [mkRecord, eqFold_refl]

/-- Witness for C1: a registry holding the record named alpha rejects a
create for ALPHA unchanged, and two successive creates for alpha from the
empty registry leave at most one matching record. -/
theorem create_duplicate_rejected_witness :
    createDB engAllOk [mkRecord tAlpha "1"] (some tAlphaUpper) =
      ([mkRecord tAlpha "1"], .dupDB, []) ∧
    countMatch
      ((createDB engAllOk ((createDB engAllOk [] (some tAlpha)).1)
        (some tAlpha)).1) tAlpha.Name ≤ 1 := by
  have h := create_duplicate_rejected engAllOk engAllOk [mkRecord tAlpha "1"]
    [] tAlphaUpper tAlpha tAlpha
    ⟨mkRecord tAlpha "1", by simp, by decide⟩ (by decide) (by decide)
  exact h

/-- Claim C2: the registry is mutated only on engine-confirmed success: a
createDB that does not reach the success exit leaves the registry
unchanged, a successful createDB appended exactly the new record after the
open, execute, ping and identity steps all returned success, a deleteDB
that does not reach the success exit leaves the registry unchanged, and a
successful deleteDB removed one record after the DROP execution
succeeded. -/
theorem registry_mutates_only_on_engine_success
    (eng : Engine) (reg : List metaData) (body : Option payload)
    (nm : String) :
    ((createDB eng reg body).2.1.isSuccess = false →
      (createDB eng reg body).1 = reg) ∧
    (∀ u, (createDB eng reg body).2.1 = .success u →
      ∃ t v n, body = some t ∧ u = toString v ∧
        eng.openOk t.Engine (dsn "") = true ∧
        eng.exec (dsn "") (createStmt t.Name) = .ok n ∧
        eng.openOk t.Engine (dsn t.Name) = true ∧
        eng.ping (dsn t.Name) = .ok ∧
        eng.uuid (dsn t.Name) = some v ∧
        (createDB eng reg body).1 = reg ++ [mkRecord t u]) ∧
    ((deleteDB eng reg nm).2.1.isSuccess = false →
      (deleteDB eng reg nm).1 = reg) ∧
    ((deleteDB eng reg nm).2.1 = .success →
      ∃ k n, k < reg.length ∧
        eng.exec (dsn nm) (dropStmt nm) = .ok n ∧
        (deleteDB eng reg nm).1 = reg.eraseIdx k) := by
  refine ⟨?_, ?_, ?_, ?_⟩
  · intro hns
    rcases create_cases eng reg body with ⟨hreg, _⟩ |
      ⟨t, v, n, _, _, _, _, _, _, _, _, hout⟩
    · exact hreg
    · rw [hout] at hns
      exact absurd hns (by simp [CreateOutcome.isSuccess])
  · intro u hu
    rcases create_cases eng reg body with ⟨_, hns⟩ |
      ⟨t, v, n, heq, _, ho1, hx, ho2, hp, hv, hreg, hout⟩
    · rw [hu] at hns
      exact absurd hns (by simp [CreateOutcome.isSuccess])
    · rw [hout] at hu
      injection hu with hu2
      exact ⟨t, v, n, heq, hu2.symm, ho1, hx, ho2, hp, hv, by rw [hreg, hu2]⟩
  · intro hns
    rcases delete_cases eng reg nm with ⟨hreg, _⟩ |
      ⟨k, n, hk, _, _, _, _, _, hout⟩
    · exact hreg
    · rw [hout] at hns
      exact absurd hns (by simp [DeleteOutcome.isSuccess])
  · intro hdel
    rcases delete_cases eng reg nm with ⟨_, hns⟩ |
      ⟨k, n, hk, _, _, _, hx, hreg, _⟩
    · rw [hdel] at hns
      exact absurd hns (by simp [DeleteOutcome.isSuccess])
    · exact ⟨k, n, hk, hx, hreg⟩

/-- Witness for C2: a failing CREATE execution leaves the registry
unchanged, and a successful create appends its record. -/
theorem registry_mutates_only_on_engine_success_witness :
    (createDB engExecFail [] (some tAlpha)).1 = [] ∧
    (createDB engAllOk [] (some tAlpha)).1 =
      [] ++ [mkRecord tAlpha "100934786117271616"] := by
  constructor
  · exact (registry_mutates_only_on_engine_success engExecFail []
      (some tAlpha) "x").1 (by decide)
  · obtain ⟨t, v, n, heq, hu, _, _, _, _, _, hreg⟩ :=
      (registry_mutates_only_on_engine_success engAllOk []
        (some tAlpha) "x").2.1 "100934786117271616" (by decide)
    injection heq with ht
    rw [← ht] at hreg
    exact hreg

/-- Claim C4: deleteDB with a name matching no registry record takes the
UnknownDatabase exit, leaves the registry unchanged, and performs no
engine call at all (empty trace: nothing opened, nothing executed). -/
theorem delete_unknown_no_engine_call
    (eng : Engine) (reg : List metaData) (nm : String)
    (h : findRecordsByDBName reg nm = -1) :
    deleteDB eng reg nm = (reg, .notPresent, []) := by
  simp only [deleteDB]
  rw [if_pos h]

/-- Witness for C4: deleting the never-created name ghost from the empty
registry returns the not-present exit with no engine interaction. -/
theorem delete_unknown_no_engine_call_witness :
    deleteDB engAllOk [] "ghost" = ([], .notPresent, []) :=
  delete_unknown_no_engine_call engAllOk [] "ghost" rfl

/-- Claim C5: after a successful create, exactly one registry record
matches the requested name under case folding and it stores the returned
identity; after a subsequent successful delete of that name, zero records
match it. -/
theorem create_delete_roundtrip
    (eng₁ : Engine) (reg : List metaData) (t : payload) (u : String)
    (h : (createDB eng₁ reg (some t)).2.1 = .success u) :
    countMatch ((createDB eng₁ reg (some t)).1) t.Name = 1 ∧
    (∀ w ∈ (createDB eng₁ reg (some t)).1,
      eqFold w.Name t.Name = true → w.uuid = u) ∧
    ∀ eng₂ : Engine,
      (deleteDB eng₂ ((createDB eng₁ reg (some t)).1) t.Name).2.1 =
        .success →
      countMatch
        ((deleteDB eng₂ ((createDB eng₁ reg (some t)).1) t.Name).1)
        t.Name = 0 := by
  rcases create_cases eng₁ reg (some t) with ⟨_, hns⟩ |
    ⟨t', v, n, heq, hfind, _, _, _, _, _, hreg, hout⟩
  · rw [h] at hns
    exact absurd hns (by simp [CreateOutcome.isSuccess])
  · injection heq with ht
    subst ht
    rw [hout] at h
    injection h with hu
    subst hu
    have hall := (find_eq_neg_iff reg t.Name).mp hfind
    have hzero : countMatch reg t.Name = 0 :=
      (countMatch_eq_zero_iff reg t.Name).mpr hall
    have hone : countMatch ((createDB eng₁ reg (some t)).1) t.Name = 1 := by
      rw [hreg, countMatch_append_single, hzero]
      simp [mkRecord, eqFold_refl]
    refine ⟨hone, ?_, ?_⟩
    · intro w hw hwm
      rw [hreg] at hw
      rcases List.mem_append.mp hw with hw2 | hw2
      · rw [hall w hw2] at hwm
        exact absurd hwm (by simp)
      · simp only [List.mem_singleton] at hw2
        subst hw2
        rfl
    · intro eng₂ hdel
      rcases delete_cases eng₂ ((createDB eng₁ reg (some t)).1) t.Name with
        ⟨_, hns⟩ | ⟨k, n₂, hk, _, hmatch, _, _, hreg₂, _⟩
      · rw [hdel] at hns
        exact absurd hns (by simp [DeleteOutcome.isSuccess])
      · rw [hreg₂]
        have herase := length_filter_eraseIdx
          (fun w => eqFold w.Name t.Name)
          ((createDB eng₁ reg (some t)).1) k hk hmatch
        simp only [countMatch] at hone ⊢
        omega

/-- Witness for C5: the spec's worked example, create alpha then delete
alpha from the empty registry. -/
theorem create_delete_roundtrip_witness :
    countMatch ((createDB engAllOk [] (some tAlpha)).1) tAlpha.Name = 1 ∧
    countMatch
      ((deleteDB engAllOk ((createDB engAllOk [] (some tAlpha)).1)
        tAlpha.Name).1) tAlpha.Name = 0 := by
  have h := create_delete_roundtrip engAllOk [] tAlpha
    "100934786117271616" (by decide)
  exact ⟨h.1, h.2.2 engAllOk (by decide)⟩

/-- Names produced by a run of successful creates: each create appends its
record at the end, so names accumulate in request order. -/
lemma runCreates_names (eng : Engine) (hok : eng.allOk) :
    ∀ (ts : List payload) (reg : List metaData),
      (∀ t ∈ ts, ∀ v ∈ reg, eqFold v.Name t.Name = false) →
      ts.Pairwise (fun a b => eqFold a.Name b.Name = false) →
      (runCreates eng reg ts).map metaData.Name =
        reg.map metaData.Name ++ ts.map payload.Name := by
  intro ts
  induction ts with
  | nil => intro reg _ _; simp [runCreates]
  | cons t rest ih =>
    intro reg hfresh hpair
    have hf : findRecordsByDBName reg t.Name = -1 :=
      (find_eq_neg_iff reg t.Name).mpr
        (fun v hv => hfresh t (List.mem_cons_self t rest) v hv)
    obtain ⟨v, hv, hreg, _⟩ := create_allOk eng reg t hok hf
    have hstep : runCreates eng reg (t :: rest) =
        runCreates eng (reg ++ [mkRecord t (toString v)]) rest := by
      simp only [runCreates, List.foldl_cons, hreg]
    rw [hstep]
    have hpc := List.pairwise_cons.mp hpair
    have hfresh2 : ∀ s ∈ rest,
        ∀ w ∈ reg ++ [mkRecord t (toString v)],
          eqFold w.Name s.Name = false := by
      intro s hs w hw
      rcases List.mem_append.mp hw with hw2 | hw2
      · exact hfresh s (List.mem_cons_of_mem t hs) w hw2
      · simp only [List.mem_singleton] at hw2
        subst hw2
        simpa [mkRecord] using hpc.1 s hs
    rw [ih (reg ++ [mkRecord t (toString v)]) hfresh2 hpc.2]
    simp [mkRecord]

/-- Claim C6: a run of successful creates lists the records in creation
order (new names are appended at the end, in request order), and any
successful delete produces a sublist of the prior registry, preserving the
relative order of the remaining records. -/
theorem registry_insertion_order
    (eng : Engine) (reg : List metaData) (ts : List payload)
    (hok : eng.allOk)
    (hfresh : ∀ t ∈ ts, ∀ v ∈ reg, eqFold v.Name t.Name = false)
    (hpair : ts.Pairwise (fun a b => eqFold a.Name b.Name = false)) :
    (runCreates eng reg ts).map metaData.Name =
      reg.map metaData.Name ++ ts.map payload.Name ∧
    ∀ (eng₂ : Engine) (reg₂ : List metaData) (nm : String),
      (deleteDB eng₂ reg₂ nm).2.1 = .success →
      List.Sublist ((deleteDB eng₂ reg₂ nm).1) reg₂ := by
  refine ⟨runCreates_names eng hok ts reg hfresh hpair, ?_⟩
  intro eng₂ reg₂ nm hdel
  rcases delete_cases eng₂ reg₂ nm with ⟨_, hns⟩ |
    ⟨k, n, hk, _, _, _, _, hreg, _⟩
  · rw [hdel] at hns
    exact absurd hns (by simp [DeleteOutcome.isSuccess])
  · rw [hreg]
    exact List.eraseIdx_sublist reg₂ k

/-- Witness for C6: creating alpha then beta from the empty registry lists
the names in creation order, and deleting alpha afterwards yields a
sublist. -/
theorem registry_insertion_order_witness :
    (runCreates engAllOk [] [tAlpha, tBeta]).map metaData.Name =
      ["alpha", "beta"] ∧
    List.Sublist
      ((deleteDB engAllOk (runCreates engAllOk [] [tAlpha, tBeta])
        "alpha").1)
      (runCreates engAllOk [] [tAlpha, tBeta]) := by
  have hok : engAllOk.allOk :=
    ⟨fun _ _ => rfl, fun _ _ => ⟨1, rfl⟩, fun _ => rfl,
     fun _ => ⟨100934786117271616, rfl⟩⟩
  have h := registry_insertion_order engAllOk [] [tAlpha, tBeta] hok
    (by simp) (by simp [List.pairwise_cons]; decide)
  refine ⟨by simpa [tAlpha, tBeta] using h.1, ?_⟩
  exact h.2 engAllOk (runCreates engAllOk [] [tAlpha, tBeta]) "alpha"
    (by decide)

/-- Claim C7: in every registry state reachable from the empty registry by
any sequence of create, delete and getMetadata operations, at most one
record per case-folded name exists: the records are pairwise non-equal
under case folding. -/
theorem reachable_at_most_one_per_name
    (r : List metaData) (h : Reachable r) :
    r.Pairwise (fun a b => eqFold a.Name b.Name = false) := by
  induction h with
  | empty => exact List.Pairwise.nil
  | create eng body r hr ih =>
    rcases create_cases eng r body with ⟨hreg, _⟩ |
      ⟨t, v, n, _, hfind, _, _, _, _, _, hreg, _⟩
    · rw [hreg]; exact ih
    · rw [hreg, List.pairwise_append]
      refine ⟨ih, List.pairwise_singleton _ _, ?_⟩
      intro a ha b hb
      simp only [List.mem_singleton] at hb
      subst hb
      simpa [mkRecord] using (find_eq_neg_iff r t.Name).mp hfind a ha
  | delete eng nm r hr ih =>
    rcases delete_cases eng r nm with ⟨hreg, _⟩ |
      ⟨k, n, hk, _, _, _, _, hreg, _⟩
    · rw [hreg]; exact ih
    · rw [hreg]
      exact ih.sublist (List.eraseIdx_sublist r k)

/-- Witness for C7: the state reached by one successful create of alpha is
duplicate-free. -/
theorem reachable_at_most_one_per_name_witness :
    ((createDB engAllOk [] (some tAlpha)).1).Pairwise
      (fun a b => eqFold a.Name b.Name = false) :=
  reachable_at_most_one_per_name _
    (Reachable.create engAllOk (some tAlpha) [] Reachable.empty)

/-- Every call in a createDB trace obeys the implemented deadline
discipline: executions and pings carry the 5-unit deadline, opens and the
identity row query carry none. -/
lemma create_trace_good (eng : Engine) (reg : List metaData)
    (body : Option payload) :
    ((createDB eng reg body).2.2.all goodCallB) = true := by
  rcases body with _ | t
  · rfl
  simp only [createDB]
  by_cases hf : findRecordsByDBName reg t.Name ≠ -1
  · rw [if_pos hf]; rfl
  rw [if_neg hf]
  cases eng.openOk t.Engine (dsn "")
  · rfl
  cases eng.exec (dsn "") (createStmt t.Name) with
  | execErr => rfl
  | timeoutErr => rfl
  | rowsErr => rfl
  | ok n =>
    cases eng.openOk t.Engine (dsn t.Name)
    · rfl
    cases eng.ping (dsn t.Name) with
    | unreachable => rfl
    | timeoutErr => rfl
    | ok =>
      cases eng.uuid (dsn t.Name) with
      | none => rfl
      | some v => rfl

/-- Every call in a deleteDB trace obeys the implemented deadline
discipline. -/
lemma delete_trace_good (eng : Engine) (reg : List metaData) (nm : String) :
    ((deleteDB eng reg nm).2.2.all goodCallB) = true := by
  simp only [deleteDB]
  by_cases hf : findRecordsByDBName reg nm = -1
  · rw [if_pos hf]; rfl
  rw [if_neg hf]
  cases eng.openOk "mysql" (dsn nm)
  · rfl
  cases eng.exec (dsn nm) (dropStmt nm) with
  | execErr => rfl
  | timeoutErr => rfl
  | rowsErr => rfl
  | ok n => rfl

/-- Counterexample to C8 as stated: in a fully successful create of alpha,
the trace contains engine calls with no deadline at all, namely the pool
opens and the identity fetch (db.QueryRow takes no context in main.go), so
it is false that every engine call is issued under the 5-unit deadline. -/
theorem engine_call_without_deadline :
    ¬ ∀ (eng : Engine) (reg : List metaData) (body : Option payload),
        ((createDB eng reg body).2.2.all specDeadlineB) = true := by
  intro h
  have hc := h engAllOk [] (some tAlpha)
  exact absurd hc (by decide)

/-- Claim C8 amended: the CREATE/DROP executions and the verification ping
are issued under the fixed 5-unit deadline and a deadline-exceeded engine
reply aborts the operation with the registry unchanged; the pool opens and
the identity fetch are issued with no deadline. -/
theorem deadline_discipline
    (eng : Engine) (reg : List metaData) (body : Option payload)
    (nm : String) :
    ((createDB eng reg body).2.2.all goodCallB) = true ∧
    ((deleteDB eng reg nm).2.2.all goodCallB) = true ∧
    (∀ t : payload, eng.exec (dsn "") (createStmt t.Name) = .timeoutErr →
      (createDB eng reg (some t)).1 = reg ∧
      (createDB eng reg (some t)).2.1.isSuccess = false) ∧
    (∀ t : payload, eng.ping (dsn t.Name) = .timeoutErr →
      (createDB eng reg (some t)).1 = reg ∧
      (createDB eng reg (some t)).2.1.isSuccess = false) ∧
    (eng.exec (dsn nm) (dropStmt nm) = .timeoutErr →
      (deleteDB eng reg nm).1 = reg ∧
      (deleteDB eng reg nm).2.1.isSuccess = false) := by
  refine ⟨create_trace_good eng reg body, delete_trace_good eng reg nm,
    ?_, ?_, ?_⟩
  · intro t ht
    rcases create_cases eng reg (some t) with ⟨hreg, hns⟩ |
      ⟨t', v, n, heq, _, _, hx, _, _, _, _, _⟩
    · exact ⟨hreg, hns⟩
    · injection heq with he
      subst he
      rw [ht] at hx
      exact absurd hx (by simp)
  · intro t ht
    rcases create_cases eng reg (some t) with ⟨hreg, hns⟩ |
      ⟨t', v, n, heq, _, _, _, _, hp, _, _, _⟩
    · exact ⟨hreg, hns⟩
    · injection heq with he
      subst he
      rw [ht] at hp
      exact absurd hp (by simp)
  · intro ht
    rcases delete_cases eng reg nm with ⟨hreg, hns⟩ |
      ⟨k, n, hk, _, _, _, hx, _, _⟩
    · exact ⟨hreg, hns⟩
    · rw [ht] at hx
      exact absurd hx (by simp)

/-- Witness for C8 amended: a successful create of alpha has a
well-deadlined trace, and a create of alpha whose CREATE execution times
out leaves the empty registry unchanged. -/
theorem deadline_discipline_witness :
    ((createDB engAllOk [] (some tAlpha)).2.2.all goodCallB) = true ∧
    (createDB engExecTimeout [] (some tAlpha)).1 = [] := by
  exact ⟨(deadline_discipline engAllOk [] (some tAlpha) "x").1,
    ((deadline_discipline engExecTimeout [] (some tAlpha) "x").2.2.1
      tAlpha rfl).1⟩

/-- Claim C3 evidence: main.go imports no synchronization primitive, so
the duplicate check and the append of two concurrent createDB goroutines
for the name alpha can interleave check-check-insert-insert, after which
the registry holds two records with the same case-folded name — while the
serialized schedule of the same two transactions holds one.  This
contradicts the claimed mutual-exclusion discipline, which the spec calls
a required correctness fix that the reference behavior lacked. -/
theorem unsynchronized_double_insert :
    countMatch
      (runSched [] ⟨tAlpha, "1", .checkPhase, false⟩
        ⟨tAlpha, "2", .checkPhase, false⟩ [true, false, true, false]).1
      "alpha" = 2 ∧
    countMatch
      (runSched [] ⟨tAlpha, "1", .checkPhase, false⟩
        ⟨tAlpha, "2", .checkPhase, false⟩ [true, true, false, false]).1
      "alpha" = 1 := by
  decide

/-- Claim C9 evidence: when the CREATE DATABASE execution fails, createDB
returns leaving its one opened (unscoped) handle without any close — the
Go code only closes the unscoped handle on the success path, so the claim
that every handle is closed on every exit path fails here. -/
theorem create_exec_failure_leaks_handle :
    ((createDB engExecFail [] (some tAlpha)).2.2.countP
      (fun c => c.isOpen)) = 1 ∧
    ((createDB engExecFail [] (some tAlpha)).2.2.countP
      (fun c => c.isClose)) = 0 := by
  decide

/-- Claim C10 evidence: a request body that fails to decode drives createDB
into the panic exit (process-level abort in Go), not a typed
InvalidRequest failure; the registry is untouched and no response is
produced. -/
theorem malformed_body_panics (eng : Engine) (reg : List metaData) :
    createDB eng reg none = (reg, .panicDecode, []) := rfl

end DBServer
